import Mathlib

/-!
# grubrun-v2 server: order registry and WebSocket echo handler

A shallow embedding of `src/server/server.go`.

* Go `string` values are Lean `String`s; `[]uint8` payloads are `List UInt8`.
* The `orders` map (`map[string]OrderRuns`) is a partial function from keys to
  records: `orders[k]` with the comma-ok form is application, `orders[k] = v`
  is a pointwise update.
* `math/rand` is the process-wide random source: a stream of raw values and a
  cursor. `rand.Intn(n)` returns a number in `[0,n)` and advances the cursor.
* `http.ResponseWriter` is the response that has been written so far.
* A WebSocket connection is a script of the results its successive
  `ReadMessage` and `WriteMessage` calls return; the handler produces the trace
  of the calls it makes.
-/

namespace Grubrun

/-! ## Data model -/

/-- The Go struct `OrderRuns` (JSON names `orderId`, `name`, `email`, `max`, `time`). -/
structure OrderRuns where
  OrderId : String
  Owner : String
  Email : String
  MaxOrder : String
  TimeLimit : String
deriving DecidableEq, Repr

/-- The Go type `map[string]OrderRuns`. -/
abbrev Orders := String → Option OrderRuns

/-- The Go expression `make(map[string]OrderRuns)`. -/
def Orders.empty : Orders := fun _ => none

/-- The Go assignment `orders[key] = order`. -/
def Orders.set (orders : Orders) (key : String) (order : OrderRuns) : Orders :=
  fun k => if k = key then some order else orders k

/-! ## Random source -/

/-- The state of the `math/rand` source: `raw k` is the k-th value it produces,
`pos` counts the values already consumed. -/
structure Rand where
  raw : Nat → Nat
  pos : Nat

/-- The Go call `rand.Intn(n)`: a number in `[0,n)`; the precondition `0 < n`
stands for the panic Go raises when `n <= 0`. -/
def Rand.Intn (g : Rand) (n : Nat) (h : 0 < n) : Fin n × Rand :=
  (⟨g.raw g.pos % n, Nat.mod_lt _ h⟩, { g with pos := g.pos + 1 })

/-! ## generateRandomString -/

/-- The slice `characters := []rune("ABCDEFGHIJKLMNOPQRSTUVWXYZ0123456789")`. -/
def characters : List Char := "ABCDEFGHIJKLMNOPQRSTUVWXYZ0123456789".toList

/-- The loop `for i := 0; i < 5; i++` of `generateRandomString`, with `k`
iterations left: draw an index, append `characters[randomIndex]` to the builder. -/
def generateLoop : Nat → String → Rand → String × Rand
  | 0, sb, g => (sb, g)
  | k + 1, sb, g =>
    let (randomIndex, g1) := g.Intn characters.length (by decide)
    generateLoop k (sb.push (characters.get randomIndex)) g1

/-- The Go function `generateRandomString`, returning the string and the
advanced random source. -/
def generateRandomString (g : Rand) : String × Rand :=
  generateLoop 5 "" g

/-! ## HTTP responses -/

/-- What a handler has written as response body. JSON encoding is carried
abstractly: `json order` is the output of `json.Marshal(order)`. -/
inductive Body where
  | text (msg : String)
  | json (order : OrderRuns)
deriving DecidableEq, Repr

/-- The response written through the `http.ResponseWriter`. -/
structure Response where
  status : Nat
  contentType : String
  body : Body
deriving DecidableEq, Repr

def StatusOK : Nat := 200
def StatusBadRequest : Nat := 400
def StatusNotFound : Nat := 404
def StatusMethodNotAllowed : Nat := 405
def StatusInternalServerError : Nat := 500

/-- The Go call `http.Error(w, msg, code)`. -/
def httpError (msg : String) (code : Nat) : Response :=
  { status := code, contentType := "text/plain; charset=utf-8", body := Body.text msg }

/-- The Go call `json.Marshal(order)`: encoding a struct of five strings does not fail. -/
def jsonMarshal (order : OrderRuns) : Except String Body :=
  Except.ok (Body.json order)

/-- The Go function `sendJSONResponse`. -/
def sendJSONResponse (orders : Orders) (orderId : String) : Response :=
  match orders orderId with
  | none => httpError "Order not found" StatusNotFound
  | some order =>
    match jsonMarshal order with
    | Except.error err => httpError err StatusInternalServerError
    | Except.ok jsonResponse =>
      { status := StatusOK, contentType := "application/json", body := jsonResponse }

/-! ## The createOrder handler -/

/-- A request to `/api/createOrder`: its method, and the result of
`json.NewDecoder(r.Body).Decode(&order)` on its body (the decode error, or the
record with every field the body carried, `orderId` included). -/
structure Request where
  Method : String
  Body : Except String OrderRuns

/-- The state the handler closes over: the `orders` map and the random source. -/
structure Server where
  orders : Orders
  rand : Rand

def MethodPost : String := "POST"

/-- The handler registered for `/api/createOrder` in `main`. -/
def createOrder (s : Server) (r : Request) : Server × Response :=
  if r.Method ≠ MethodPost then
    (s, httpError "Invalid request method" StatusMethodNotAllowed)
  else
    match r.Body with
    | Except.error err => (s, httpError err StatusBadRequest)
    | Except.ok decoded =>
      let (randomString, g1) := generateRandomString s.rand
      let order := { decoded with OrderId := randomString }
      let orders := s.orders.set order.OrderId order
      ({ orders := orders, rand := g1 }, sendJSONResponse orders order.OrderId)

/-- The server state when `main` starts serving: the empty map. -/
def Server.init (g : Rand) : Server := { orders := Orders.empty, rand := g }

/-- Serving a sequence of requests one after the other: the final state and the responses. -/
def serve : Server → List Request → Server × List Response
  | s, [] => (s, [])
  | s, r :: rs =>
    let (s1, resp) := createOrder s r
    let (s2, resps) := serve s1 rs
    (s2, resp :: resps)

/-- The identifier a response returns to the caller, when it is a successful registration. -/
def Response.issuedId (resp : Response) : Option String :=
  match resp.body with
  | Body.json order => if resp.status = StatusOK then some order.OrderId else none
  | Body.text _ => none

/-- The identifiers returned by the successful registrations among the responses. -/
def issuedIds (resps : List Response) : List String :=
  resps.filterMap Response.issuedId

/-! ## WebSocket echo handler -/

/-- A message payload, Go `[]uint8`. -/
abbrev Bytes := List UInt8

/-- What one call `ws.ReadMessage()` returns: a frame, or an error. -/
inductive ReadResult where
  | ok (messageType : Int) (message : Bytes)
  | err (e : String)
deriving DecidableEq, Repr

/-- An established `*websocket.Conn` as the handler sees it: the results its
successive `ReadMessage` calls return, and for each `k` the error (or nil) its
k-th `WriteMessage` call returns. -/
structure Conn where
  reads : List ReadResult
  writeErr : Nat → Option String

/-- The calls `handleConnections` makes, in program order. -/
inductive Event where
  | logError (e : String)
  | logInfo (msg : String)
  | logReceived (messageType : Int) (message : Bytes)
  | logWarn (e : String)
  | ReadMessage (res : ReadResult)
  | WriteMessage (messageType : Int) (data : Bytes) (err : Option String)
  | Close
  | nilReadMessage
  | nilClose
deriving DecidableEq, Repr

/-- How far the handler got: it returned, it is blocked in `ReadMessage`
waiting for the next message, or it panicked. -/
inductive Exit where
  | returned
  | blocked
  | panicked
deriving DecidableEq, Repr

/-- The `for` loop of `handleConnections` on an established connection.
`reads` are the results the remaining `ReadMessage` calls return, `k` is the
number of `WriteMessage` calls made so far and the third argument the value of
the global `lastReceivedMessage`. Returns the calls made, the exit and the
final value of the global. -/
def echoLoop (writeErr : Nat → Option String) :
    List ReadResult → Nat → Bytes → List Event × Exit × Bytes
  | [], _, last => ([], Exit.blocked, last)
  | ReadResult.err e :: _, _, last =>
    ([Event.ReadMessage (ReadResult.err e), Event.logWarn e], Exit.returned, last)
  | ReadResult.ok messageType message :: rest, k, _ =>
    let lastReceivedMessage := message
    match writeErr k with
    | some e =>
      ([Event.ReadMessage (ReadResult.ok messageType message),
        Event.logReceived messageType message,
        Event.WriteMessage messageType lastReceivedMessage (some e),
        Event.logWarn e], Exit.returned, lastReceivedMessage)
    | none =>
      let (tr, ex, last1) := echoLoop writeErr rest (k + 1) lastReceivedMessage
      (Event.ReadMessage (ReadResult.ok messageType message)
        :: Event.logReceived messageType message
        :: Event.WriteMessage messageType lastReceivedMessage none :: tr, ex, last1)

/-- The Go function `handleConnections`. `upgrade` is what
`upgrader.Upgrade(w, r, nil)` returns: the connection, or a nil connection with
an error. On a nil connection `ws.ReadMessage()` dereferences nil and panics,
and so does the deferred `ws.Close()`. The deferred `Close` runs when the loop
has been left. -/
def handleConnections (upgrade : Except String Conn) (last : Bytes) :
    List Event × Exit × Bytes :=
  let (ws, reported) : Option Conn × List Event :=
    match upgrade with
    | Except.ok c => (some c, [])
    | Except.error err => (none, [Event.logError err])
  let established := [Event.logInfo "New WebSocket connection established"]
  match ws with
  | none =>
    (reported ++ established ++ [Event.nilReadMessage, Event.nilClose], Exit.panicked, last)
  | some c =>
    let (tr, ex, last1) := echoLoop c.writeErr c.reads 0 last
    match ex with
    | Exit.blocked => (reported ++ established ++ tr, ex, last1)
    | _ => (reported ++ established ++ tr ++ [Event.Close], ex, last1)

/-- The frame an event reads: the result of a successful `ReadMessage`. -/
def Event.readFrame : Event → Option (Int × Bytes)
  | Event.ReadMessage (ReadResult.ok t m) => some (t, m)
  | _ => none

/-- The frame an event passes to `WriteMessage`. -/
def Event.writeFrame : Event → Option (Int × Bytes)
  | Event.WriteMessage t d _ => some (t, d)
  | _ => none

/-- The event is a `ReadMessage` or `WriteMessage` call, nil receiver included. -/
def Event.isConnCall : Event → Bool
  | Event.ReadMessage _ => true
  | Event.WriteMessage _ _ _ => true
  | Event.nilReadMessage => true
  | _ => false

/-- The frames returned by the successful `ReadMessage` calls of a trace. -/
def readsOf (tr : List Event) : List (Int × Bytes) :=
  tr.filterMap Event.readFrame

/-- The frames passed to the `WriteMessage` calls of a trace. -/
def writesOf (tr : List Event) : List (Int × Bytes) :=
  tr.filterMap Event.writeFrame

/-- The `ReadMessage` and `WriteMessage` calls of a trace. -/
def connCalls (tr : List Event) : List Event :=
  tr.filter Event.isConnCall

/-- A sequence of connection calls is a strict echo: each frame read is
followed at once by the write of the same type and payload, the next read
comes only after a successful write, and nothing follows a failed read or a
failed write. -/
def StrictEcho : List Event → Prop
  | [] => True
  | Event.ReadMessage (ReadResult.err _) :: rest => rest = []
  | Event.ReadMessage (ReadResult.ok t m) :: Event.WriteMessage t1 d err :: rest =>
    t1 = t ∧ d = m ∧ if err.isSome then rest = [] else StrictEcho rest
  | _ => False

/-- The read results that deliver the given frames. -/
def framesOk (frames : List (Int × Bytes)) : List ReadResult :=
  frames.map fun f => ReadResult.ok f.1 f.2

/-! ## Concurrent sessions over the shared `lastReceivedMessage` -/

/-- Where a session stands in the loop body of `handleConnections`. -/
inductive Pc where
  | read
  | store (messageType : Int) (message : Bytes)
  | write (messageType : Int)
  | closed
deriving DecidableEq, Repr

/-- One running `handleConnections`: its program point, its connection, and
the history of the frames it has read and of the frames it has passed to
`WriteMessage`. -/
structure Session where
  pc : Pc
  reads : List ReadResult
  writeErr : Nat → Option String
  received : List (Int × Bytes)
  written : List (Int × Bytes)

/-- A session that has just entered the loop on connection `c`. -/
def Session.start (c : Conn) : Session :=
  { pc := Pc.read, reads := c.reads, writeErr := c.writeErr, received := [], written := [] }

/-- One atomic step of a session, given the current value of the global
`lastReceivedMessage`; returns the session and the new value of the global.
`read` is `ws.ReadMessage()`, `store` is `lastReceivedMessage = message`,
`write` is `ws.WriteMessage(messageType, lastReceivedMessage)`. -/
def Session.step (s : Session) (last : Bytes) : Session × Bytes :=
  match s.pc with
  | Pc.read =>
    match s.reads with
    | [] => (s, last)
    | ReadResult.err _ :: rest => ({ s with pc := Pc.closed, reads := rest }, last)
    | ReadResult.ok t m :: rest =>
      ({ s with pc := Pc.store t m, reads := rest, received := s.received ++ [(t, m)] }, last)
  | Pc.store t m => ({ s with pc := Pc.write t }, m)
  | Pc.write t =>
    match s.writeErr s.written.length with
    | some _ => ({ s with pc := Pc.closed, written := s.written ++ [(t, last)] }, last)
    | none => ({ s with pc := Pc.read, written := s.written ++ [(t, last)] }, last)
  | Pc.closed => (s, last)

/-- The process: the global `lastReceivedMessage` and the open sessions. -/
structure Process where
  lastReceivedMessage : Bytes
  sessions : List Session

/-- The process with one fresh session per connection. -/
def Process.start (last : Bytes) (conns : List Conn) : Process :=
  { lastReceivedMessage := last, sessions := conns.map Session.start }

/-- Session `i` takes its next step. -/
def Process.step (p : Process) (i : Nat) : Process :=
  match p.sessions[i]? with
  | none => p
  | some s =>
    let (s1, last1) := s.step p.lastReceivedMessage
    { lastReceivedMessage := last1, sessions := p.sessions.set i s1 }

/-- An interleaving: the sessions step in the order the schedule lists them. -/
def Process.run : Process → List Nat → Process
  | p, [] => p
  | p, i :: sched => (p.step i).run sched

/-- A session running alone for `n` steps, no other session in between. -/
def Session.runAlone : Nat → Session → Bytes → Session × Bytes
  | 0, s, last => (s, last)
  | n + 1, s, last => Session.runAlone n (s.step last).1 (s.step last).2

/-- Session `i` stands at its `WriteMessage`, after its store. -/
def Process.atWrite (p : Process) (i : Nat) : Bool :=
  match p.sessions[i]? with
  | some s => match s.pc with
    | Pc.write _ => true
    | _ => false
  | none => false

/-- Session `j` stands at its store `lastReceivedMessage = message`. -/
def Process.atStore (p : Process) (j : Nat) : Bool :=
  match p.sessions[j]? with
  | some s => match s.pc with
    | Pc.store _ _ => true
    | _ => false
  | none => false

/-- The schedule never lets another session execute its store while session
`i` stands between its own store and its `WriteMessage`. -/
def undisturbed (i : Nat) : Process → List Nat → Bool
  | _, [] => true
  | p, j :: sched =>
    !(decide (j ≠ i) && p.atWrite i && p.atStore j) && undisturbed i (p.step j) sched

/-! ## Auxiliary definitions for the statements -/

/-- The character the `i`-th coming draw of the source selects. -/
def pick (g : Rand) (i : Nat) : Char :=
  characters.get ⟨g.raw (g.pos + i) % characters.length, Nat.mod_lt _ (by decide)⟩

/-- The record `createOrder` stores for a decoded body: the decoded fields with
`OrderId` overwritten by the generated identifier. -/
def registered (decoded : OrderRuns) (id : String) : OrderRuns :=
  { decoded with OrderId := id }

/-- The response `sendJSONResponse` writes for a record it has found. -/
def okResponse (order : OrderRuns) : Response :=
  { status := StatusOK, contentType := "application/json", body := Body.json order }

/-- Every key of the map is the `OrderId` of its record. -/
def KeysMatch (orders : Orders) : Prop :=
  ∀ k v, orders k = some v → v.OrderId = k

/-- The shape of an identifier: exactly 5 characters, each `A`-`Z` or `0`-`9`. -/
def IsOrderId (id : String) : Prop :=
  id.length = 5 ∧ ∀ c ∈ id.toList, ('A' ≤ c ∧ c ≤ 'Z') ∨ ('0' ≤ c ∧ c ≤ '9')

/-- A source whose every raw value is `n`. -/
def constRand (n : Nat) : Rand := { raw := fun _ => n, pos := 0 }

/-- A source whose draws are `0` five times, then `1` five times, and so on. -/
def blockRand : Rand := { raw := fun k => k / 5, pos := 0 }

/-- A `POST` request whose body decodes to `fields`. -/
def post (fields : OrderRuns) : Request := { Method := "POST", Body := Except.ok fields }

/-- The body of the scenario of the specification. -/
def ana : OrderRuns :=
  { OrderId := "", Owner := "Ana", Email := "a@x.com", MaxOrder := "10", TimeLimit := "1h" }

/-- A second body, carrying an `orderId` of its own. -/
def bob : OrderRuns :=
  { OrderId := "ZZZZZ", Owner := "Bob", Email := "b@x.com", MaxOrder := "3", TimeLimit := "2h" }

/-- The source that returns the five indices `d 0`, ..., `d 4`, then zeros. -/
def ofDraws (d : Fin 5 → Fin 36) : Rand :=
  { raw := fun k => if h : k < 5 then (d ⟨k, h⟩ : Nat) else 0, pos := 0 }

/-- The set of the strings `generateRandomString` can return. -/
def identifiers : Set String :=
  Set.range fun g : Rand => (generateRandomString g).1

/-- The scenario of the specification: a text frame `ping`, then a binary frame `[1, 2]`. -/
def pingConn : Conn :=
  { reads := [ReadResult.ok 1 [112, 105, 110, 103], ReadResult.ok 2 [1, 2]],
    writeErr := fun _ => none }

/-- What the history of a session looks like at each program point, given the
value of the global: outside the loop body everything read has been written;
after a read one frame is pending; at the write the pending payload is the
global. -/
def Session.Coherent (s : Session) (last : Bytes) : Prop :=
  match s.pc with
  | Pc.read => s.received = s.written
  | Pc.closed => s.received = s.written
  | Pc.store t m => s.received = s.written ++ [(t, m)]
  | Pc.write t => s.received = s.written ++ [(t, last)]

/-- Two connections that each deliver one text frame: `a` and `b`. -/
def connA : Conn := { reads := [ReadResult.ok 1 [97]], writeErr := fun _ => none }

def connB : Conn := { reads := [ReadResult.ok 1 [98]], writeErr := fun _ => none }

/-- Session 0 of `connA` and `connB` once it has echoed its frame `a`. -/
def sessionDone : Session :=
  { pc := Pc.read, reads := [], writeErr := fun _ => none, received := [(1, [97])],
    written := [(1, [97])] }

/-- Session 0 of `connA` and `connB` standing at its write of the frame `a`. -/
def sessionAtWrite : Session :=
  { pc := Pc.write 1, reads := [], writeErr := fun _ => none, received := [(1, [97])],
    written := [] }

/-! ## Lemmas on identifier generation -/

theorem generateLoop_data (k : Nat) (sb : String) (g : Rand) :
    (generateLoop k sb g).1.data = sb.data ++ (List.range k).map (pick g) := by
  induction k generalizing sb g with
  | zero => simp [generateLoop]
  | succ k ih =>
    simp only [generateLoop, Rand.Intn]
    rw [ih, List.range_succ_eq_map]
    simp [pick, String.push, Nat.add_assoc, Nat.add_comm 1, Function.comp_def]

theorem generateLoop_rand (k : Nat) (sb : String) (g : Rand) :
    (generateLoop k sb g).2 = { raw := g.raw, pos := g.pos + k } := by
  induction k generalizing sb g with
  | zero => rfl
  | succ k ih =>
    simp only [generateLoop, Rand.Intn]
    rw [ih, Nat.add_assoc, Nat.add_comm 1 k]

theorem generateRandomString_rand (g : Rand) :
    (generateRandomString g).2 = { raw := g.raw, pos := g.pos + 5 } :=
  generateLoop_rand 5 "" g

theorem generateRandomString_data (g : Rand) :
    (generateRandomString g).1.data = [pick g 0, pick g 1, pick g 2, pick g 3, pick g 4] := by
  simp [generateRandomString, generateLoop_data, List.range_succ]

theorem pick_mem (g : Rand) (i : Nat) : pick g i ∈ characters :=
  List.get_mem _ _ _

theorem characters_shape :
    ∀ c ∈ characters, ('A' ≤ c ∧ c ≤ 'Z') ∨ ('0' ≤ c ∧ c ≤ '9') := by
  decide

/-! ## Lemmas on the registry -/

theorem Orders.set_same (orders : Orders) (key : String) (order : OrderRuns) :
    orders.set key order key = some order := by
  simp [Orders.set]

theorem Orders.set_other (orders : Orders) (key k : String) (order : OrderRuns) (h : k ≠ key) :
    orders.set key order k = orders k := by
  simp [Orders.set, h]

theorem sendJSONResponse_found (orders : Orders) (id : String) (order : OrderRuns)
    (h : orders id = some order) : sendJSONResponse orders id = okResponse order := by
  simp [sendJSONResponse, h, jsonMarshal, okResponse]

theorem sendJSONResponse_absent (orders : Orders) (id : String) (h : orders id = none) :
    sendJSONResponse orders id = httpError "Order not found" StatusNotFound := by
  simp [sendJSONResponse, h]

theorem createOrder_rejected_method (s : Server) (r : Request) (h : r.Method ≠ MethodPost) :
    createOrder s r = (s, httpError "Invalid request method" StatusMethodNotAllowed) := by
  simp [createOrder, h]

theorem createOrder_rejected_body (s : Server) (r : Request) (err : String)
    (hm : r.Method = MethodPost) (hb : r.Body = Except.error err) :
    createOrder s r = (s, httpError err StatusBadRequest) := by
  simp [createOrder, hm, hb]

theorem createOrder_accepted (s : Server) (r : Request) (decoded : OrderRuns)
    (hm : r.Method = MethodPost) (hb : r.Body = Except.ok decoded) :
    createOrder s r =
      ({ orders := s.orders.set (generateRandomString s.rand).1
            (registered decoded (generateRandomString s.rand).1),
         rand := (generateRandomString s.rand).2 },
       okResponse (registered decoded (generateRandomString s.rand).1)) := by
  simp only [createOrder, hm, hb, ne_eq, not_true_eq_false, if_false]
  rw [sendJSONResponse_found _ _ _ (Orders.set_same _ _ _)]
  rfl

theorem issuedId_httpError (msg : String) (code : Nat) : (httpError msg code).issuedId = none := rfl

theorem issuedId_okResponse (order : OrderRuns) :
    (okResponse order).issuedId = some order.OrderId := by
  simp [okResponse, Response.issuedId]

/-- The three ways `createOrder` ends: rejected with the state untouched, or a
record stored under the generated identifier. -/
theorem createOrder_cases (s : Server) (r : Request) :
    (createOrder s r).1 = s ∧ (createOrder s r).2.issuedId = none ∧
        (createOrder s r).2.status ≠ StatusOK ∨
    ∃ decoded, r.Method = MethodPost ∧ r.Body = Except.ok decoded ∧
      createOrder s r =
        ({ orders := s.orders.set (generateRandomString s.rand).1
              (registered decoded (generateRandomString s.rand).1),
           rand := (generateRandomString s.rand).2 },
         okResponse (registered decoded (generateRandomString s.rand).1)) := by
  by_cases hm : r.Method = MethodPost
  · cases hb : r.Body with
    | error err =>
      left
      rw [createOrder_rejected_body s r err hm hb]
      exact ⟨rfl, rfl, by simp [httpError, StatusBadRequest, StatusOK]⟩
    | ok decoded =>
      right
      exact ⟨decoded, hm, rfl, createOrder_accepted s r decoded hm hb⟩
  · left
    rw [createOrder_rejected_method s r hm]
    exact ⟨rfl, rfl, by simp [httpError, StatusMethodNotAllowed, StatusOK]⟩

theorem serve_cons (s : Server) (r : Request) (rs : List Request) :
    serve s (r :: rs) =
      ((serve (createOrder s r).1 rs).1, (createOrder s r).2 :: (serve (createOrder s r).1 rs).2) :=
  rfl

/-- A key that no registration of the run returned keeps the entry it had. -/
theorem serve_orders_of_not_issued (rs : List Request) (s : Server) (id : String)
    (h : id ∉ issuedIds (serve s rs).2) : (serve s rs).1.orders id = s.orders id := by
  induction rs generalizing s with
  | nil => rfl
  | cons r rs ih =>
    rw [serve_cons] at h ⊢
    simp only [issuedIds, List.filterMap_cons] at h
    rcases createOrder_cases s r with ⟨h1, h2, _⟩ | ⟨decoded, _, _, hc⟩
    · rw [h2] at h
      rw [ih _ h, h1]
    · rw [hc] at h ⊢
      simp only [issuedId_okResponse, List.mem_cons, not_or] at h
      dsimp only at h ⊢
      rw [ih _ h.2]
      exact Orders.set_other _ _ _ _ h.1

theorem createOrder_keysMatch (s : Server) (r : Request) (h : KeysMatch s.orders) :
    KeysMatch (createOrder s r).1.orders := by
  rcases createOrder_cases s r with ⟨h1, _, _⟩ | ⟨decoded, _, _, hc⟩
  · rw [h1]; exact h
  · rw [hc]
    intro k v hk
    dsimp only at hk
    by_cases hkey : k = (generateRandomString s.rand).1
    · subst hkey
      rw [Orders.set_same] at hk
      cases hk
      rfl
    · rw [Orders.set_other _ _ _ _ hkey] at hk
      exact h k v hk

theorem serve_keysMatch (rs : List Request) (s : Server) (h : KeysMatch s.orders) :
    KeysMatch (serve s rs).1.orders := by
  induction rs generalizing s with
  | nil => exact h
  | cons r rs ih =>
    rw [serve_cons]
    exact ih _ (createOrder_keysMatch s r h)

/-- When the identifiers a run returned are pairwise distinct, each record a
registration answered with is the entry of its identifier at the end. -/
theorem serve_keeps_of_nodup (rs : List Request) (s : Server)
    (h : (issuedIds (serve s rs).2).Nodup) (resp : Response) (hr : resp ∈ (serve s rs).2)
    (order : OrderRuns) (hs : resp.status = StatusOK) (hb : resp.body = Body.json order) :
    (serve s rs).1.orders order.OrderId = some order := by
  induction rs generalizing s with
  | nil => simp [serve] at hr
  | cons r rs ih =>
    rw [serve_cons] at h hr ⊢
    simp only [issuedIds, List.filterMap_cons] at h
    rcases List.mem_cons.1 hr with hhead | htail
    · rcases createOrder_cases s r with ⟨_, _, h3⟩ | ⟨decoded, _, _, hc⟩
      · exact absurd (hhead ▸ hs) h3
      · rw [hc] at h hhead ⊢
        subst hhead
        simp only [okResponse, Body.json.injEq] at hb
        subst hb
        simp only [issuedId_okResponse, List.nodup_cons] at h
        rw [serve_orders_of_not_issued _ _ _ h.1]
        exact Orders.set_same _ _ _
    · apply ih _ _ htail
      cases hi : (createOrder s r).2.issuedId with
      | none => rw [hi] at h; exact h
      | some id => rw [hi] at h; exact (List.nodup_cons.1 h).2

theorem generateRandomString_isOrderId (g : Rand) : IsOrderId (generateRandomString g).1 := by
  constructor
  · show (generateRandomString g).1.data.length = 5
    rw [generateRandomString_data]
    rfl
  · intro c hc
    have hc1 : c ∈ (generateRandomString g).1.data := hc
    rw [generateRandomString_data] at hc1
    simp only [List.mem_cons, List.mem_singleton, List.not_mem_nil, or_false] at hc1
    rcases hc1 with h | h | h | h | h <;> subst h <;> exact characters_shape _ (pick_mem _ _)

/-! ## The order registry: claims -/

/-- C1: whatever the random source returns, `generateRandomString` returns a
string of exactly 5 characters, each an uppercase letter `A`-`Z` or a digit
`0`-`9`; hence every identifier a successful registration returns has this
shape, whatever the state and the request. -/
theorem generateRandomString_shape (g : Rand) (s : Server) (r : Request) :
    IsOrderId (generateRandomString g).1 ∧
      ∀ id, (createOrder s r).2.issuedId = some id → IsOrderId id := by
  refine ⟨generateRandomString_isOrderId g, fun id hid => ?_⟩
  rcases createOrder_cases s r with ⟨_, h2, _⟩ | ⟨decoded, _, _, hc⟩
  · rw [h2] at hid
    cases hid
  · rw [hc] at hid
    simp only [issuedId_okResponse, registered, Option.some.injEq] at hid
    rw [← hid]
    exact generateRandomString_isOrderId s.rand

theorem generateRandomString_shape_witness :
    (createOrder (Server.init (constRand 0)) (post ana)).2.issuedId = some "AAAAA" ∧
      IsOrderId "AAAAA" :=
  ⟨by decide,
    (generateRandomString_shape (constRand 0) (Server.init (constRand 0)) (post ana)).2
      "AAAAA" (by decide)⟩

/-- C2: for every registry state and every POST request whose body decodes,
the handler stores a record, and the lookup `sendJSONResponse` does with the
generated identifier finds it: the response is `200` with the record whose
`orderId` is the generated identifier and whose name, email, max and time are
the submitted ones, whatever `orderId` the body carried. -/
theorem createOrder_lookup (s : Server) (r : Request) (decoded : OrderRuns)
    (hm : r.Method = "POST") (hb : r.Body = Except.ok decoded) :
    (createOrder s r).1.orders (generateRandomString s.rand).1 =
        some { OrderId := (generateRandomString s.rand).1, Owner := decoded.Owner,
               Email := decoded.Email, MaxOrder := decoded.MaxOrder,
               TimeLimit := decoded.TimeLimit } ∧
      sendJSONResponse (createOrder s r).1.orders (generateRandomString s.rand).1 =
        (createOrder s r).2 ∧
      (createOrder s r).2 =
        { status := 200, contentType := "application/json",
          body := Body.json
            { OrderId := (generateRandomString s.rand).1, Owner := decoded.Owner,
              Email := decoded.Email, MaxOrder := decoded.MaxOrder,
              TimeLimit := decoded.TimeLimit } } := by
  rw [createOrder_accepted s r decoded hm hb]
  refine ⟨Orders.set_same _ _ _, ?_, rfl⟩
  exact sendJSONResponse_found _ _ _ (Orders.set_same _ _ _)

theorem createOrder_lookup_witness :
    sendJSONResponse (createOrder (Server.init (constRand 35)) (post bob)).1.orders "99999" =
      { status := 200, contentType := "application/json",
        body := Body.json
          { OrderId := "99999", Owner := "Bob", Email := "b@x.com", MaxOrder := "3",
            TimeLimit := "2h" } } :=
  ((createOrder_lookup (Server.init (constRand 35)) (post bob) bob rfl rfl).2.1).trans
    (createOrder_lookup (Server.init (constRand 35)) (post bob) bob rfl rfl).2.2

/-- C3, as the code has it: a registration never regenerates. It builds its
identifier from the next five draws of the source, which it consumes, and
stores its record under it, replacing whatever record that key held and
leaving every other key as it was; so, in a run from the empty registry whose
returned identifiers are pairwise distinct, every record a registration
returned is still retrievable unchanged under its own identifier at the end. -/
theorem createOrder_overwrites (s : Server) (r : Request) (decoded : OrderRuns)
    (g : Rand) (rs : List Request)
    (hm : r.Method = "POST") (hb : r.Body = Except.ok decoded) :
    ((createOrder s r).1.orders (generateRandomString s.rand).1 =
        some (registered decoded (generateRandomString s.rand).1) ∧
      ∀ k, k ≠ (generateRandomString s.rand).1 → (createOrder s r).1.orders k = s.orders k) ∧
    ((issuedIds (serve (Server.init g) rs).2).Nodup →
      ∀ resp ∈ (serve (Server.init g) rs).2, ∀ order, resp.status = 200 →
        resp.body = Body.json order →
        (serve (Server.init g) rs).1.orders order.OrderId = some order) ∧
    ((generateRandomString s.rand).1.data =
        [pick s.rand 0, pick s.rand 1, pick s.rand 2, pick s.rand 3, pick s.rand 4] ∧
      (createOrder s r).2.issuedId = some (generateRandomString s.rand).1 ∧
      (createOrder s r).1.rand = { raw := s.rand.raw, pos := s.rand.pos + 5 }) := by
  refine ⟨?_, fun hn resp hr order hs hbody => serve_keeps_of_nodup rs _ hn resp hr order hs hbody,
    generateRandomString_data s.rand, ?_, ?_⟩
  · rw [createOrder_accepted s r decoded hm hb]
    exact ⟨Orders.set_same _ _ _, fun k hk => Orders.set_other _ _ _ _ hk⟩
  · rw [createOrder_accepted s r decoded hm hb]
    exact issuedId_okResponse _
  · rw [createOrder_accepted s r decoded hm hb]
    exact generateRandomString_rand s.rand

theorem createOrder_overwrites_witness :
    (issuedIds (serve (Server.init blockRand) [post ana, post bob]).2 = ["AAAAA", "BBBBB"] ∧
      (serve (Server.init blockRand) [post ana, post bob]).1.orders "AAAAA" =
        some (registered ana "AAAAA") ∧
      (serve (Server.init blockRand) [post ana, post bob]).1.orders "BBBBB" =
        some (registered bob "BBBBB")) ∧
    ((createOrder (serve (Server.init blockRand) [post ana]).1 (post bob)).1.orders "BBBBB" =
        some (registered bob "BBBBB") ∧
      (createOrder (serve (Server.init blockRand) [post ana]).1 (post bob)).1.orders "AAAAA" =
        (serve (Server.init blockRand) [post ana]).1.orders "AAAAA" ∧
      (createOrder (serve (Server.init blockRand) [post ana]).1 (post bob)).1.rand.pos = 10) ∧
    ((serve (Server.init (constRand 0)) [post ana]).1.orders "AAAAA" =
        some (registered ana "AAAAA") ∧
      (createOrder (serve (Server.init (constRand 0)) [post ana]).1 (post bob)).1.orders "AAAAA" =
        some (registered bob "AAAAA")) :=
  ⟨⟨by decide,
      (createOrder_overwrites (Server.init blockRand) (post ana) ana blockRand
          [post ana, post bob] rfl rfl).2.1 (by decide) (okResponse (registered ana "AAAAA"))
        (by decide) (registered ana "AAAAA") rfl rfl,
      (createOrder_overwrites (Server.init blockRand) (post ana) ana blockRand
          [post ana, post bob] rfl rfl).2.1 (by decide) (okResponse (registered bob "BBBBB"))
        (by decide) (registered bob "BBBBB") rfl rfl⟩,
    ⟨(createOrder_overwrites (serve (Server.init blockRand) [post ana]).1 (post bob) bob
          blockRand [] rfl rfl).1.1,
      (createOrder_overwrites (serve (Server.init blockRand) [post ana]).1 (post bob) bob
          blockRand [] rfl rfl).1.2 "AAAAA" (by decide),
      congrArg Rand.pos
        (createOrder_overwrites (serve (Server.init blockRand) [post ana]).1 (post bob) bob
          blockRand [] rfl rfl).2.2.2.2⟩,
    ⟨by decide,
      (createOrder_overwrites (serve (Server.init (constRand 0)) [post ana]).1 (post bob) bob
          (constRand 0) [] rfl rfl).1.1⟩⟩

/-- C3, as stated, fails: with a source that repeats its draws, two successful
registrations return the same identifier `AAAAA`, and the record of the first
is no longer retrievable: the key holds the record of the second. -/
theorem register_collision :
    issuedIds (serve (Server.init (constRand 0)) [post ana, post bob]).2 = ["AAAAA", "AAAAA"] ∧
      ¬ (issuedIds (serve (Server.init (constRand 0)) [post ana, post bob]).2).Nodup ∧
      (serve (Server.init (constRand 0)) [post ana]).1.orders "AAAAA" =
        some (registered ana "AAAAA") ∧
      (serve (Server.init (constRand 0)) [post ana, post bob]).1.orders "AAAAA" =
        some (registered bob "AAAAA") ∧
      registered ana "AAAAA" ≠ registered bob "AAAAA" := by
  decide

/-- C4: in every state reached from the empty map by any sequence of
`createOrder` requests, accepted or rejected, every key present in the map is
the `OrderId` of the record stored under it. -/
theorem orders_key_eq_orderId (g : Rand) (rs : List Request) (k : String) (v : OrderRuns)
    (h : (serve (Server.init g) rs).1.orders k = some v) : v.OrderId = k :=
  serve_keysMatch rs (Server.init g) (fun _ _ hk => by cases hk) k v h

theorem orders_key_eq_orderId_witness :
    (serve (Server.init (constRand 0)) [post ana, { Method := "GET", Body := Except.ok bob }]).1.orders
        "AAAAA" = some (registered ana "AAAAA") ∧
      (registered ana "AAAAA").OrderId = "AAAAA" :=
  ⟨by decide,
    orders_key_eq_orderId (constRand 0) [post ana, { Method := "GET", Body := Except.ok bob }]
      "AAAAA" (registered ana "AAAAA") (by decide)⟩

/-- C5: in every state reached from the empty map by a sequence of requests,
the lookup of an identifier that none of the registrations returned takes the
`Order not found` branch: status 404, and no record. -/
theorem lookup_never_issued (g : Rand) (rs : List Request) (id : String)
    (h : id ∉ issuedIds (serve (Server.init g) rs).2) :
    (serve (Server.init g) rs).1.orders id = none ∧
      sendJSONResponse (serve (Server.init g) rs).1.orders id =
        { status := 404, contentType := "text/plain; charset=utf-8",
          body := Body.text "Order not found" } := by
  have h1 : (serve (Server.init g) rs).1.orders id = none := by
    rw [serve_orders_of_not_issued rs _ id h]
    rfl
  exact ⟨h1, sendJSONResponse_absent _ _ h1⟩

theorem lookup_never_issued_witness :
    "AAAAB" ∉ issuedIds (serve (Server.init (constRand 0)) [post ana, post bob]).2 ∧
      sendJSONResponse (serve (Server.init (constRand 0)) [post ana, post bob]).1.orders "AAAAB" =
        { status := 404, contentType := "text/plain; charset=utf-8",
          body := Body.text "Order not found" } :=
  ⟨by decide, (lookup_never_issued (constRand 0) [post ana, post bob] "AAAAB" (by decide)).2⟩

/-- C8: for every state and every request whose method is not POST, the handler
answers 405, and the state is exactly what it was: the map is unchanged and
the random source has not been drawn from. -/
theorem createOrder_method_not_allowed (s : Server) (r : Request) (h : r.Method ≠ "POST") :
    (createOrder s r).2 =
        { status := 405, contentType := "text/plain; charset=utf-8",
          body := Body.text "Invalid request method" } ∧
      (createOrder s r).1 = s ∧
      (createOrder s r).1.orders = s.orders ∧
      (createOrder s r).1.rand.pos = s.rand.pos := by
  rw [createOrder_rejected_method s r h]
  exact ⟨rfl, rfl, rfl, rfl⟩

theorem createOrder_method_not_allowed_witness :
    (createOrder (Server.init (constRand 0)) { Method := "GET", Body := Except.ok ana }).2.status
        = 405 ∧
      (createOrder (Server.init (constRand 0)) { Method := "GET", Body := Except.ok ana }).1.orders
        "AAAAA" = none :=
  ⟨congrArg Response.status
      (createOrder_method_not_allowed (Server.init (constRand 0))
        { Method := "GET", Body := Except.ok ana } (by decide)).1,
    by rw [(createOrder_method_not_allowed (Server.init (constRand 0))
        { Method := "GET", Body := Except.ok ana } (by decide)).2.2.1]; rfl⟩

/-! ## Counting the identifiers -/

theorem characters_nodup : characters.Nodup := by decide

theorem pick_ofDraws (d : Fin 5 → Fin 36) (i : Fin 5) :
    pick (ofDraws d) i = characters.get ⟨d i, (d i).isLt⟩ := by
  have hi : (i : Nat) < 5 := i.isLt
  have hd : ((d i : Nat)) % characters.length = d i := Nat.mod_eq_of_lt (d i).isLt
  simp only [pick, ofDraws, Nat.zero_add, hi, dite_true, Fin.eta]
  congr 1
  exact Fin.ext hd

theorem generateRandomString_ofDraws (d : Fin 5 → Fin 36) :
    (generateRandomString (ofDraws d)).1.data =
      [characters.get ⟨d 0, (d 0).isLt⟩, characters.get ⟨d 1, (d 1).isLt⟩,
       characters.get ⟨d 2, (d 2).isLt⟩, characters.get ⟨d 3, (d 3).isLt⟩,
       characters.get ⟨d 4, (d 4).isLt⟩] := by
  rw [generateRandomString_data]
  have h0 := pick_ofDraws d 0
  have h1 := pick_ofDraws d 1
  have h2 := pick_ofDraws d 2
  have h3 := pick_ofDraws d 3
  have h4 := pick_ofDraws d 4
  simp only [Fin.val_zero, Fin.val_one, Fin.val_two] at h0 h1 h2
  have e3 : ((3 : Fin 5) : Nat) = 3 := rfl
  have e4 : ((4 : Fin 5) : Nat) = 4 := rfl
  rw [e3] at h3
  rw [e4] at h4
  rw [h0, h1, h2, h3, h4]

theorem generateRandomString_ofDraws_injective :
    Function.Injective fun d : Fin 5 → Fin 36 => (generateRandomString (ofDraws d)).1 := by
  intro d e hde
  have h := congrArg String.data hde
  simp only [generateRandomString_ofDraws, List.cons.injEq, and_true] at h
  have key : ∀ a b : Fin 36, characters.get ⟨a, a.isLt⟩ = characters.get ⟨b, b.isLt⟩ → a = b := by
    intro a b hab
    have := (List.Nodup.get_inj_iff characters_nodup).1 hab
    exact Fin.ext (Fin.mk.inj this)
  obtain ⟨h0, h1, h2, h3, h4⟩ := h
  funext i
  fin_cases i
  · exact key _ _ h0
  · exact key _ _ h1
  · exact key _ _ h2
  · exact key _ _ h3
  · exact key _ _ h4

theorem identifiers_eq_range_ofDraws :
    identifiers = Set.range fun d : Fin 5 → Fin 36 => (generateRandomString (ofDraws d)).1 := by
  apply Set.eq_of_subset_of_subset
  · rintro _ ⟨g, rfl⟩
    refine ⟨fun i => ⟨g.raw (g.pos + i) % characters.length, Nat.mod_lt _ (by decide)⟩, ?_⟩
    have hdata : ∀ a b : String, a.data = b.data → a = b := fun a b h => by
      cases a; cases b; cases h; rfl
    apply hdata
    rw [generateRandomString_ofDraws, generateRandomString_data]
    rfl
  · rintro _ ⟨d, rfl⟩
    exact ⟨ofDraws d, rfl⟩

theorem identifiers_ncard : identifiers.ncard = 36 ^ 5 := by
  rw [identifiers_eq_range_ofDraws, ← Set.image_univ,
    Set.ncard_image_of_injective _ generateRandomString_ofDraws_injective, Set.ncard_univ,
    Nat.card_eq_fintype_card, Fintype.card_pi_const, Fintype.card_fin]

/-- C9, as the code has it: the number of distinct identifiers
`generateRandomString` can return is `36^5 = 60466176`, about `6.05×10^7`
(between `6.045×10^7` and `6.055×10^7`); one draw collides with a given
identifier with chance about 1 in 60 million. -/
theorem identifiers_count :
    identifiers.ncard = 60466176 ∧ 60450000 ≤ identifiers.ncard ∧
      identifiers.ncard < 60550000 := by
  rw [identifiers_ncard]
  decide

/-- C9, as stated, fails: the number of identifiers does not round to
`5.17×10^7`, it lies outside `[5.165×10^7, 5.175×10^7)`. -/
theorem identifiers_count_not_517 :
    ¬ (51650000 ≤ identifiers.ncard ∧ identifiers.ncard < 51750000) := by
  rw [identifiers_ncard]
  decide

/-! ## The echo loop -/

theorem echoLoop_strict (w : Nat → Option String) (reads : List ReadResult) (k : Nat)
    (last : Bytes) :
    StrictEcho (connCalls (echoLoop w reads k last).1) ∧
      writesOf (echoLoop w reads k last).1 = readsOf (echoLoop w reads k last).1 ∧
      ∃ rest, reads = framesOk (readsOf (echoLoop w reads k last).1) ++ rest := by
  induction reads generalizing k last with
  | nil => exact ⟨trivial, rfl, [], rfl⟩
  | cons r rs ih =>
    cases r with
    | err e => exact ⟨rfl, rfl, ReadResult.err e :: rs, rfl⟩
    | ok t m =>
      cases hw : w k with
      | some e =>
        simp only [echoLoop, hw]
        exact ⟨⟨rfl, rfl, rfl⟩, rfl, rs, rfl⟩
      | none =>
        obtain ⟨h1, h2, rest, h3⟩ := ih (k + 1) m
        simp only [echoLoop, hw]
        refine ⟨⟨rfl, rfl, h1⟩, ?_, rest, ?_⟩
        · exact congrArg (List.cons (t, m)) h2
        · exact congrArg (List.cons (ReadResult.ok t m)) h3

theorem echoLoop_all (w : Nat → Option String) (hw : ∀ k, w k = none)
    (frames : List (Int × Bytes)) (k : Nat) (last : Bytes) :
    writesOf (echoLoop w (framesOk frames) k last).1 = frames ∧
      (echoLoop w (framesOk frames) k last).2.1 = Exit.blocked := by
  induction frames generalizing k last with
  | nil => exact ⟨rfl, rfl⟩
  | cons f fs ih =>
    obtain ⟨h1, h2⟩ := ih (k + 1) f.2
    simp only [framesOk, List.map_cons, echoLoop, hw]
    refine ⟨?_, h2⟩
    exact congrArg (List.cons f) h1

theorem handleConnections_established (c : Conn) (last : Bytes) :
    connCalls (handleConnections (Except.ok c) last).1 =
        connCalls (echoLoop c.writeErr c.reads 0 last).1 ∧
      readsOf (handleConnections (Except.ok c) last).1 =
        readsOf (echoLoop c.writeErr c.reads 0 last).1 ∧
      writesOf (handleConnections (Except.ok c) last).1 =
        writesOf (echoLoop c.writeErr c.reads 0 last).1 ∧
      (handleConnections (Except.ok c) last).2.1 = (echoLoop c.writeErr c.reads 0 last).2.1 := by
  simp only [handleConnections]
  cases h : (echoLoop c.writeErr c.reads 0 last).2.1 <;>
    simp [connCalls, readsOf, writesOf, List.filter_append, List.filterMap_append,
      Event.isConnCall, Event.readFrame, Event.writeFrame, h]

/-- C6: on an established connection, the `ReadMessage` and `WriteMessage`
calls of `handleConnections` form a strict echo: every frame read is followed
at once by the write of the same frame type and payload, before the next read,
and nothing follows the first failed read or failed write. The frames passed to
`WriteMessage` are exactly the frames read, which are the frames the connection
delivered, in order; when every delivery is a frame and no write fails, they
are all the frames received. -/
theorem handleConnections_echo (c : Conn) (last : Bytes) :
    StrictEcho (connCalls (handleConnections (Except.ok c) last).1) ∧
      writesOf (handleConnections (Except.ok c) last).1 =
        readsOf (handleConnections (Except.ok c) last).1 ∧
      (∃ rest, c.reads = framesOk (readsOf (handleConnections (Except.ok c) last).1) ++ rest) ∧
      ∀ frames, c.reads = framesOk frames → (∀ k, c.writeErr k = none) →
        writesOf (handleConnections (Except.ok c) last).1 = frames := by
  obtain ⟨e1, e2, e3, _⟩ := handleConnections_established c last
  obtain ⟨h1, h2, h3⟩ := echoLoop_strict c.writeErr c.reads 0 last
  rw [e1, e2, e3]
  refine ⟨h1, h2, h3, fun frames hf hw => ?_⟩
  rw [hf]
  exact (echoLoop_all c.writeErr hw frames 0 last).1

theorem handleConnections_echo_witness :
    writesOf (handleConnections (Except.ok pingConn) []).1 =
      [(1, [112, 105, 110, 103]), (2, [1, 2])] :=
  (handleConnections_echo pingConn []).2.2.2 [(1, [112, 105, 110, 103]), (2, [1, 2])] rfl
    (fun _ => rfl)

/-- C7 on the code: when `upgrader.Upgrade` fails, the handler logs the error
and falls through: it logs the connection as established and calls
`ReadMessage` on the nil connection, which panics. -/
theorem handleConnections_failed_upgrade (err : String) (last : Bytes) :
    handleConnections (Except.error err) last =
        ([Event.logError err, Event.logInfo "New WebSocket connection established",
          Event.nilReadMessage, Event.nilClose], Exit.panicked, last) ∧
      connCalls (handleConnections (Except.error err) last).1 = [Event.nilReadMessage] :=
  ⟨rfl, rfl⟩

/-! ## Concurrent sessions -/

theorem Session.step_coherent (s : Session) (last : Bytes) (h : s.Coherent last) :
    (s.step last).1.Coherent (s.step last).2 := by
  unfold Session.Coherent at h
  unfold Session.step
  split
  · rename_i hpc
    rw [hpc] at h
    split
    · simp only [Session.Coherent, hpc]
      exact h
    · simp only [Session.Coherent]
      exact h
    · simp only [Session.Coherent]
      rw [h]
  · rename_i t m hpc
    rw [hpc] at h
    simp only [Session.Coherent]
    exact h
  · rename_i t hpc
    rw [hpc] at h
    split <;> simp only [Session.Coherent] <;> exact h
  · rename_i hpc
    rw [hpc] at h
    simp only [Session.Coherent, hpc]
    exact h

theorem Session.coherent_of_not_write (s : Session) (last last1 : Bytes)
    (hw : ∀ t, s.pc ≠ Pc.write t) (h : s.Coherent last) : s.Coherent last1 := by
  unfold Session.Coherent at h ⊢
  cases hpc : s.pc with
  | write t => exact absurd hpc (hw t)
  | read => rw [hpc] at h; exact h
  | closed => rw [hpc] at h; exact h
  | store t m => rw [hpc] at h; exact h

theorem Session.step_global_of_not_store (s : Session) (last : Bytes)
    (hs : ∀ t m, s.pc ≠ Pc.store t m) : (s.step last).2 = last := by
  unfold Session.step
  split
  · split <;> rfl
  · rename_i t m hpc; exact absurd hpc (hs t m)
  · split <;> rfl
  · rfl

theorem Session.runAlone_closed (n : Nat) (s : Session) (last : Bytes) (h : s.pc = Pc.closed) :
    (Session.runAlone n s last).1.written = s.written := by
  induction n generalizing last with
  | zero => rfl
  | succ n ih =>
    have hstep : s.step last = (s, last) := by simp [Session.step, h]
    simp only [Session.runAlone, hstep]
    exact ih last

/-- The step semantics agrees with the loop: a session left alone writes the
frames that `echoLoop` passes to `WriteMessage`. -/
theorem Session.runAlone_eq_echoLoop (w : Nat → Option String) (rs : List ReadResult)
    (rc wr : List (Int × Bytes)) (last : Bytes) :
    (Session.runAlone (3 * rs.length)
        { pc := Pc.read, reads := rs, writeErr := w, received := rc, written := wr } last).1.written
      = wr ++ writesOf (echoLoop w rs wr.length last).1 := by
  induction rs generalizing rc wr last with
  | nil => simp [Session.runAlone, echoLoop, writesOf]
  | cons r rs ih =>
    rw [List.length_cons, Nat.mul_succ]
    cases r with
    | err e =>
      simp only [Session.runAlone, Session.step]
      rw [Session.runAlone_closed _ _ _ rfl]
      simp [echoLoop, writesOf, Event.writeFrame]
    | ok t m =>
      cases hw : w wr.length with
      | some e =>
        simp only [Session.runAlone, Session.step, hw]
        rw [Session.runAlone_closed _ _ _ rfl]
        simp [echoLoop, hw, writesOf, Event.writeFrame]
      | none =>
        simp only [Session.runAlone, Session.step, hw]
        rw [ih]
        simp [echoLoop, hw, writesOf, Event.writeFrame]

theorem Process.step_own (p : Process) (i : Nat) (s : Session) (h : p.sessions[i]? = some s) :
    (p.step i).sessions[i]? = some (s.step p.lastReceivedMessage).1 ∧
      (p.step i).lastReceivedMessage = (s.step p.lastReceivedMessage).2 := by
  have hlt : i < p.sessions.length := (List.getElem?_eq_some.1 h).1
  simp [Process.step, h, List.getElem?_set, hlt]

theorem Process.step_other (p : Process) (i j : Nat) (h : j ≠ i) :
    (p.step j).sessions[i]? = p.sessions[i]? := by
  unfold Process.step
  split
  · rfl
  · simp [List.getElem?_set, h]

theorem Process.step_global (p : Process) (j : Nat) (h : p.atStore j = false) :
    (p.step j).lastReceivedMessage = p.lastReceivedMessage := by
  unfold Process.atStore at h
  unfold Process.step
  split
  · rfl
  · rename_i s hs
    rw [hs] at h
    apply Session.step_global_of_not_store
    intro t m hpc
    simp [hpc] at h

theorem Process.step_keeps_coherent (p : Process) (i j : Nat)
    (hu : (decide (j ≠ i) && p.atWrite i && p.atStore j) = false)
    (h : ∀ s, p.sessions[i]? = some s → s.Coherent p.lastReceivedMessage) :
    ∀ s, (p.step j).sessions[i]? = some s → s.Coherent (p.step j).lastReceivedMessage := by
  intro s hs
  by_cases hji : j = i
  · subst hji
    cases hp : p.sessions[j]? with
    | none => simp [Process.step, hp] at hs
    | some s0 =>
      obtain ⟨h1, h2⟩ := Process.step_own p j s0 hp
      rw [h1] at hs
      cases hs
      rw [h2]
      exact Session.step_coherent s0 _ (h s0 hp)
  · rw [Process.step_other p i j hji] at hs
    have hc := h s hs
    by_cases hst : p.atStore j = false
    · rw [Process.step_global p j hst]
      exact hc
    · have hw : p.atWrite i = false := by
        simp only [ne_eq, hji, not_false_eq_true, decide_True, Bool.true_and,
          Bool.and_eq_false_imp] at hu
        cases hwi : p.atWrite i with
        | false => rfl
        | true => exact absurd (hu hwi) hst
      apply Session.coherent_of_not_write s _ _ _ hc
      intro t hpc
      simp [Process.atWrite, hs, hpc] at hw

theorem Process.run_coherent (i : Nat) (sched : List Nat) (p : Process)
    (hu : undisturbed i p sched = true)
    (h : ∀ s, p.sessions[i]? = some s → s.Coherent p.lastReceivedMessage) :
    ∀ s, (p.run sched).sessions[i]? = some s → s.Coherent (p.run sched).lastReceivedMessage := by
  induction sched generalizing p with
  | nil => exact h
  | cons j sched ih =>
    simp only [undisturbed, Bool.and_eq_true, Bool.not_eq_true'] at hu
    exact ih (p.step j) hu.2 (Process.step_keeps_coherent p i j hu.1 h)

theorem Session.Coherent.pending (s : Session) (last : Bytes) (h : s.Coherent last) :
    ∃ pending, s.received = s.written ++ pending ∧ pending.length ≤ 1 := by
  unfold Session.Coherent at h
  split at h
  · exact ⟨[], by simpa using h, by simp⟩
  · exact ⟨[], by simpa using h, by simp⟩
  · exact ⟨_, h, by simp⟩
  · exact ⟨_, h, by simp⟩

/-- C10, as the code has it: a `WriteMessage` step sends the current value of
the process-wide `lastReceivedMessage`. In every interleaving in which no other
session executes its store `lastReceivedMessage = message` while session `i`
stands between its own store and its write, the frames session `i` has written
are, in order, the frames it has read itself, with at most the last one read
still pending. -/
theorem undisturbed_session_echoes_own (last : Bytes) (conns : List Conn) (sched : List Nat)
    (i : Nat) (s : Session) (p : Process) (s0 : Session) (t : Int)
    (hu : undisturbed i (Process.start last conns) sched = true)
    (hs : ((Process.start last conns).run sched).sessions[i]? = some s)
    (h0 : p.sessions[i]? = some s0) (hpc : s0.pc = Pc.write t) :
    (∃ pending, s.received = s.written ++ pending ∧ pending.length ≤ 1) ∧
      ((p.step i).sessions[i]?).map Session.written =
        some (s0.written ++ [(t, p.lastReceivedMessage)]) := by
  constructor
  · apply Session.Coherent.pending s _
    apply Process.run_coherent i sched _ hu _ s hs
    intro s1 hs1
    simp only [Process.start, List.getElem?_map, Option.map_eq_some'] at hs1
    obtain ⟨c, _, rfl⟩ := hs1
    rfl
  · rw [(Process.step_own p i s0 h0).1]
    simp only [Session.step, hpc, Option.map_some', Option.some.injEq]
    split <;> rfl

theorem undisturbed_session_echoes_own_witness :
    undisturbed 0 (Process.start [] [connA, connB]) [0, 0, 0, 1, 1, 1] = true ∧
      (∃ pending, sessionDone.received = sessionDone.written ++ pending ∧ pending.length ≤ 1) ∧
      ((((Process.start [] [connA, connB]).run [0, 0, 1, 1]).step 0).sessions[0]?).map
          Session.written = some (sessionAtWrite.written ++ [(1, [98])]) :=
  ⟨by decide,
    undisturbed_session_echoes_own [] [connA, connB] [0, 0, 0, 1, 1, 1] 0 sessionDone
      ((Process.start [] [connA, connB]).run [0, 0, 1, 1]) sessionAtWrite 1 (by decide) rfl rfl
      rfl⟩

/-- C10, as stated, fails: session 0 reads `a` and stores it, session 1 reads
`b` and stores it, then session 0 writes: the frame it sends carries `b`, the
payload session 1 received, while session 0 has only ever read `a`. -/
theorem sessions_cross :
    ((Process.start [] [connA, connB]).run [0, 0, 1, 1, 0]).sessions.map Session.written =
        [[(1, [98])], []] ∧
      ((Process.start [] [connA, connB]).run [0, 0, 1, 1, 0]).sessions.map Session.received =
        [[(1, [97])], [(1, [98])]] := by
  decide

end Grubrun
